import Mathlib

/-!
Shallow embedding of the meme-generation API route (`pages/api/...` handler)
of the Rizz-GPT repository.

Strings of the JavaScript source are modelled as `List Char`.  JavaScript
values that may be `undefined` are modelled with `Option`.  The three
external collaborators (chat-completion API, image-render API, document
store) are modelled by fields of an `Env` record holding their responses,
and the handler returns, next to its HTTP outcome, an `Effects` record
saying which external operations were performed.
-/

/-- Description field of a catalog entry as it comes out of `JSON.parse`:
the key may be missing (`undef`, i.e. JavaScript `undefined`), explicitly
`null`, or a string. -/
inductive DescVal where
  | undef
  | null
  | str (s : List Char)
deriving DecidableEq, Repr

/-- The `Meme` record type of the source (id, name, url, box_count,
description). -/
structure Meme where
  id : List Char
  name : List Char
  url : List Char
  box_count : Nat
  description : DescVal
deriving DecidableEq, Repr

/-- Result of the `do { chosenMeme = memes[...] } while (chosenMeme?.description === null)`
loop: a meme was selected, or indexing returned `undefined` and the loop
exited with an undefined selection (the later field access then throws),
or the modelled supply of random draws ran out (the loop would keep
spinning). -/
inductive SelectResult where
  | selected (m : Meme)
  | undefinedSel
  | outOfFuel
deriving DecidableEq, Repr

/-- The rejection-sampling loop of the handler.  `rands` is the stream of
values `Math.floor(Math.random() * memes.length)`; each iteration indexes
the catalog and repeats exactly when the chosen entry's description is
`null` (the source tests `chosenMeme?.description === null`). -/
def selectMeme (memes : List Meme) : List Nat → SelectResult
  | [] => SelectResult.outOfFuel
  | i :: rest =>
    match memes[i]? with
    | none => SelectResult.undefinedSel
    | some m =>
      if m.description = DescVal.null then selectMeme memes rest
      else SelectResult.selected m

/-- Models the JavaScript regex class `\s` (whitespace) for the characters
that matter here: space, tab, line terminators, form/vertical tab, NBSP,
BOM. -/
def isJsSpace (c : Char) : Bool :=
  c = ' ' || c = '\t' || c = '\n' || c = '\r' ||
  c = '\x0b' || c = '\x0c' || c = '\u00A0' || c = '\uFEFF'

/-- Models the JavaScript regex `.` (any character but a line terminator). -/
def notLineTerm (c : Char) : Bool :=
  !(c = '\n' || c = '\r' || c = '\u2028' || c = '\u2029')

/-- Strip `p` from the front of `s`, returning the remainder when `p` is a
prefix of `s`. -/
def dropPrefixQ : List Char → List Char → Option (List Char)
  | [], s => some s
  | _ :: _, [] => none
  | p :: ps, c :: cs => if c = p then dropPrefixQ ps cs else none

/-- Match of `/Caption\[\d\]:\s(.*)/` anchored at the front of `s`:
returns the full match and the remainder of `s` after it. -/
def matchCaption1At (s : List Char) : Option (List Char × List Char) :=
  match dropPrefixQ "Caption[".toList s with
  | none => none
  | some r1 =>
    match r1 with
    | [] => none
    | d :: r2 =>
      if d.isDigit then
        match dropPrefixQ "]:".toList r2 with
        | none => none
        | some r3 =>
          match r3 with
          | [] => none
          | w :: r4 =>
            if isJsSpace w then
              some ("Caption[".toList ++ d :: ']' :: ':' :: w :: r4.takeWhile notLineTerm,
                    r4.dropWhile notLineTerm)
            else none
      else none

/-- Match of `/Caption\s\d\:\s(.*)/` anchored at the front of `s`. -/
def matchCaption2At (s : List Char) : Option (List Char × List Char) :=
  match dropPrefixQ "Caption".toList s with
  | none => none
  | some r1 =>
    match r1 with
    | w1 :: d :: ':' :: w2 :: r4 =>
      if isJsSpace w1 && d.isDigit && isJsSpace w2 then
        some ("Caption".toList ++ w1 :: d :: ':' :: w2 :: r4.takeWhile notLineTerm,
              r4.dropWhile notLineTerm)
      else none
    | _ => none

/-- Match of `/Caption\d\:\s(.*)/` anchored at the front of `s`. -/
def matchCaption3At (s : List Char) : Option (List Char × List Char) :=
  match dropPrefixQ "Caption".toList s with
  | none => none
  | some r1 =>
    match r1 with
    | d :: ':' :: w :: r4 =>
      if d.isDigit && isJsSpace w then
        some ("Caption".toList ++ d :: ':' :: w :: r4.takeWhile notLineTerm,
              r4.dropWhile notLineTerm)
      else none
    | _ => none

/-- The literal invitation marker `Invitation:` shared by both invitation
regexes. -/
def invMarker : List Char := "Invitation:".toList

/-- Match of `/Invitation:\s(.*)/` anchored at the front of `s`. -/
def matchInv1At (s : List Char) : Option (List Char × List Char) :=
  match dropPrefixQ invMarker s with
  | none => none
  | some r1 =>
    match r1 with
    | [] => none
    | w :: r2 =>
      if isJsSpace w then
        some (invMarker ++ w :: r2.takeWhile notLineTerm,
              r2.dropWhile notLineTerm)
      else none

/-- Match of `/Invitation:\n(.*)/` anchored at the front of `s`. -/
def matchInv2At (s : List Char) : Option (List Char × List Char) :=
  match dropPrefixQ invMarker s with
  | none => none
  | some r1 =>
    match r1 with
    | [] => none
    | w :: r2 =>
      if w = '\n' then
        some (invMarker ++ w :: r2.takeWhile notLineTerm,
              r2.dropWhile notLineTerm)
      else none

/-- First (leftmost) match of an anchored matcher, as JavaScript
`String.match` with a non-global regex: returns the full match text. -/
def firstMatch (q : List Char → Option (List Char × List Char)) :
    List Char → Option (List Char)
  | [] => (q []).map Prod.fst
  | c :: cs =>
    match q (c :: cs) with
    | some (m, _) => some m
    | none => firstMatch q cs

/-- All matches of an anchored matcher scanning left to right, resuming
after each match, as JavaScript `String.match` with a `g` regex.  `fuel`
bounds the recursion; every successful match consumes at least one
character, so fuel equal to the string length is enough. -/
def allMatchesAux (q : List Char → Option (List Char × List Char)) :
    Nat → List Char → List (List Char)
  | 0, _ => []
  | _ + 1, [] => []
  | fuel + 1, c :: cs =>
    match q (c :: cs) with
    | some (m, rest) => m :: allMatchesAux q fuel rest
    | none => allMatchesAux q fuel cs

/-- All matches of an anchored matcher in `s` (JavaScript global match). -/
def allMatches (q : List Char → Option (List Char × List Char))
    (s : List Char) : List (List Char) :=
  allMatchesAux q s.length s

/-- JavaScript `str.split(": ")`: split on every occurrence of the
two-character separator `": "`, scanning left to right.  `acc` holds the
current chunk reversed. -/
def splitCS : List Char → List Char → List (List Char)
  | [], acc => [acc.reverse]
  | [c], acc => [(c :: acc).reverse]
  | c :: c2 :: cs, acc =>
    if c = ':' ∧ c2 = ' ' then acc.reverse :: splitCS cs []
    else splitCS (c2 :: cs) (c :: acc)

/-- The map step of the source: `caption.split(": ")` then take element 1
(`undefined`, i.e. `none`, when the split has fewer than two pieces). -/
def extractCaptionText (m : List Char) : Option (List Char) :=
  (splitCS m [])[1]?

/-- A caption record `{ text: ... }`; the text is `undefined` when the
split of the matched line produced fewer than two pieces. -/
structure Caption where
  text : Option (List Char)
deriving DecidableEq, Repr

/-- Line 81 of the source: try the three caption regexes in order (global
match); the result of the first regex with any match is used, otherwise
the empty list. -/
def captionMatches (msg : List Char) : List (List Char) :=
  let m1 := allMatches matchCaption1At msg
  if m1.isEmpty then
    let m2 := allMatches matchCaption2At msg
    if m2.isEmpty then allMatches matchCaption3At msg
    else m2
  else m1

/-- Lines 84-89 of the source: map each matched caption line to
`{ text: caption.split(": ")[1] }`. -/
def captionsOf (msg : List Char) : List Caption :=
  (captionMatches msg).map (fun m => ⟨extractCaptionText m⟩)

/-- JavaScript `message.lastIndexOf(c)` as an `Option Nat` (`none` for
-1). -/
def lastIdxOf (c : Char) : List Char → Option Nat
  | [] => none
  | x :: xs =>
    match lastIdxOf c xs with
    | some i => some (i + 1)
    | none => if x = c then some 0 else none

/-- `message.lastIndexOf(the colon) + 1`, the start position handed to
`substring`. -/
def lastColonCut (msg : List Char) : Nat :=
  match lastIdxOf ':' msg with
  | some i => i + 1
  | none => 0

/-- Lines 98-100 of the source: `message.substring(message.lastIndexOf(the
colon) + 1)`. -/
def invitationFallback (msg : List Char) : List Char :=
  msg.drop (lastColonCut msg)

/-- Lines 92-101 of the source: try `/Invitation:\s(.*)/` then
`/Invitation:\n(.*)/`; on a match take `match[0].split(": ")[1]` (possibly
`undefined`); when both fail, take everything after the last colon. -/
def parseInvitation (msg : List Char) : Option (List Char) :=
  match (firstMatch matchInv1At msg).orElse (fun _ => firstMatch matchInv2At msg) with
  | some m => (splitCS m [])[1]?
  | none => some (invitationFallback msg)

/-- The validity test of line 122 applied to the invitation:
`invitation === undefined || invitation === null || invitation === ''`. -/
def invitationInvalid : Option (List Char) → Bool
  | none => true
  | some s => s.isEmpty

/-- Inputs of one request: the HTTP method, whether the catalog file
exists, its parsed contents, the stream of random draws, and the responses
of the three external collaborators, plus the generated key and clock
reading used by the store write. -/
structure Env where
  method : List Char
  catalogExists : Bool
  memes : List Meme
  rands : List Nat
  modelContent : Option (List Char)
  renderOk : Bool
  renderUrl : Option (List Char)
  storeCount : Nat
  uuid : List Char
  now : Nat
deriving DecidableEq, Repr

/-- Body of the JSON response: an error message, or the success payload
`{ memeUrl, captions, invitation }` (the url and invitation are whatever
the variables hold, possibly `undefined`). -/
inductive RespBody where
  | err (msg : List Char)
  | ok (memeUrl : Option (List Char)) (captions : List Caption)
      (invitation : Option (List Char))
deriving DecidableEq, Repr

/-- How the request ends: a status/body response, a thrown `TypeError`
(field access on `undefined`), or non-termination of the selection loop. -/
inductive Outcome where
  | response (status : Nat) (body : RespBody)
  | crash
  | diverge
deriving DecidableEq, Repr

/-- The document written by `setDoc` on the success path. -/
structure StoredDoc where
  key : List Char
  imgFlipMemeId : List Char
  captions : List Caption
  invitation : Option (List Char)
  created : Nat
  random : Nat
deriving DecidableEq, Repr

/-- External operations performed during the request: whether the
image-render API was called, how many count reads and which document
writes hit the store. -/
structure Effects where
  renderCalled : Bool
  countReads : Nat
  writes : List StoredDoc
deriving DecidableEq, Repr

/-- No external render/store operation. -/
def noEffects : Effects := ⟨false, 0, []⟩

/-- Error message of line 36. -/
def methodErrMsg : List Char := "This type of request is not supported.".toList

/-- Error message of line 41. -/
def catalogErrMsg : List Char := "Unable to retrieve memes.".toList

/-- Error message of line 76. -/
def chatErrMsg : List Char := "Unable to contact ChatGPT\x27s servers.".toList

/-- Error message of line 131. -/
def genErrMsg : List Char := "Unable to generate meme.".toList

/-- The whole request handler, line by line: method check (405), catalog
existence check (500), template selection, chat-completion content check
(500), caption and invitation parsing, image-render call, combined
validity check (500, nothing stored), then count read, document write and
the 201 response. -/
def handler (env : Env) : Outcome × Effects :=
  if env.method ≠ "POST".toList then
    (Outcome.response 405 (RespBody.err methodErrMsg), noEffects)
  else if env.catalogExists = false then
    (Outcome.response 500 (RespBody.err catalogErrMsg), noEffects)
  else
    match selectMeme env.memes env.rands with
    | SelectResult.outOfFuel => (Outcome.diverge, noEffects)
    | SelectResult.undefinedSel => (Outcome.crash, noEffects)
    | SelectResult.selected meme =>
      match env.modelContent with
      | none => (Outcome.response 500 (RespBody.err chatErrMsg), noEffects)
      | some message =>
        if message = [] then
          (Outcome.response 500 (RespBody.err chatErrMsg), noEffects)
        else
          let caps := captionsOf message
          let inv := parseInvitation message
          if env.renderOk = false ∨ invitationInvalid inv = true ∨ caps = [] then
            (Outcome.response 500 (RespBody.err genErrMsg),
             ⟨true, 0, []⟩)
          else
            (Outcome.response 201 (RespBody.ok env.renderUrl caps inv),
             ⟨true, 1, [⟨env.uuid, meme.id, caps, inv, env.now, env.storeCount⟩]⟩)

/-- Bool test: the two-character separator `": "` occurs nowhere in `s`. -/
def sepFree : List Char → Bool
  | [] => true
  | [_] => true
  | c :: c2 :: cs =>
    if c = ':' ∧ c2 = ' ' then false else sepFree (c2 :: cs)

/-- Proposition form of `sepFree`, shaped for induction: no position of
the list starts with the separator `": "`. -/
inductive SepFree : List Char → Prop
  | nil : SepFree []
  | single (c : Char) : SepFree [c]
  | cons (c c2 : Char) (cs : List Char) (h : ¬(c = ':' ∧ c2 = ' '))
      (tail : SepFree (c2 :: cs)) : SepFree (c :: c2 :: cs)

/-- The part of a caption-pattern match that precedes its `": "`
separator, for matches of the three caption regexes whose `\s` landed on
an actual space: `Caption[<digit>]`, `Caption<space><digit>` or
`Caption<digit>`. -/
inductive CapPre : List Char → Prop
  | bracket (d : Char) (h : d.isDigit = true) :
      CapPre ('C' :: 'a' :: 'p' :: 't' :: 'i' :: 'o' :: 'n' :: '[' :: d :: ']' :: [])
  | spaced (w d : Char) (hw : isJsSpace w = true) (h : d.isDigit = true) :
      CapPre ('C' :: 'a' :: 'p' :: 't' :: 'i' :: 'o' :: 'n' :: w :: d :: [])
  | plain (d : Char) (h : d.isDigit = true) :
      CapPre ('C' :: 'a' :: 'p' :: 't' :: 'i' :: 'o' :: 'n' :: d :: [])

/-- Bool test: `p` occurs as a contiguous substring of the second list. -/
def hasSub (p : List Char) : List Char → Bool
  | [] => p.isEmpty
  | c :: cs => (dropPrefixQ p (c :: cs)).isSome || hasSub p cs

theorem splitCS_sep (cs acc : List Char) :
    splitCS (':' :: ' ' :: cs) acc = acc.reverse :: splitCS cs [] := by
  simp [splitCS]

theorem splitCS_push (c c2 : Char) (cs acc : List Char)
    (h : ¬(c = ':' ∧ c2 = ' ')) :
    splitCS (c :: c2 :: cs) acc = splitCS (c2 :: cs) (c :: acc) := by
  simp [splitCS, h]

theorem splitCS_sepFree (b : List Char) (hb : SepFree b) :
    ∀ acc, splitCS b acc = [acc.reverse ++ b] := by
  induction hb with
  | nil => intro acc; simp [splitCS]
  | single c => intro acc; simp [splitCS]
  | cons c c2 cs h _ ih =>
    intro acc
    rw [splitCS_push c c2 cs acc h, ih]
    simp

theorem splitCS_firstSep (b : List Char) (hb : SepFree b) :
    ∀ acc rest, splitCS (b ++ ':' :: ' ' :: rest) acc =
      (acc.reverse ++ b) :: splitCS rest [] := by
  induction hb with
  | nil => intro acc rest; simpa using splitCS_sep rest acc
  | single c =>
    intro acc rest
    rw [show ([c] ++ ':' :: ' ' :: rest) = c :: ':' :: ' ' :: rest from rfl,
      splitCS_push c ':' (' ' :: rest) acc (fun hh => absurd hh.2 (by decide)),
      splitCS_sep rest (c :: acc)]
    simp
  | cons c c2 cs h _ ih =>
    intro acc rest
    rw [show ((c :: c2 :: cs) ++ ':' :: ' ' :: rest) =
        c :: c2 :: (cs ++ ':' :: ' ' :: rest) from rfl,
      splitCS_push c c2 _ acc h,
      show (c2 :: (cs ++ ':' :: ' ' :: rest)) = (c2 :: cs) ++ ':' :: ' ' :: rest from rfl,
      ih (c :: acc) rest]
    simp

theorem sepFree_sound (b : List Char) (hb : sepFree b = true) : SepFree b := by
  induction b with
  | nil => exact SepFree.nil
  | cons c cs ih =>
    cases cs with
    | nil => exact SepFree.single c
    | cons c2 cs2 =>
      by_cases h : c = ':' ∧ c2 = ' '
      · rw [show sepFree (c :: c2 :: cs2) = false by simp [sepFree, h]] at hb
        cases hb
      · refine SepFree.cons c c2 cs2 h (ih ?_)
        rw [show sepFree (c :: c2 :: cs2) = sepFree (c2 :: cs2) by simp [sepFree, h]] at hb
        exact hb

theorem isJsSpace_ne_colon (w : Char) (hw : isJsSpace w = true) : w ≠ ':' := by
  intro h
  subst h
  exact absurd hw (by decide)

theorem capPre_sepFree (core : List Char) (hcore : CapPre core) : SepFree core := by
  cases hcore with
  | bracket d _ =>
    exact SepFree.cons _ _ _ (by decide) (SepFree.cons _ _ _ (by decide)
      (SepFree.cons _ _ _ (by decide) (SepFree.cons _ _ _ (by decide)
      (SepFree.cons _ _ _ (by decide) (SepFree.cons _ _ _ (by decide)
      (SepFree.cons _ _ _ (fun hh => absurd hh.1 (by decide))
      (SepFree.cons _ _ _ (fun hh => absurd hh.1 (by decide))
      (SepFree.cons _ _ _ (fun hh => absurd hh.2 (by decide))
      (SepFree.single ']')))))))))
  | spaced w d hw _ =>
    exact SepFree.cons _ _ _ (by decide) (SepFree.cons _ _ _ (by decide)
      (SepFree.cons _ _ _ (by decide) (SepFree.cons _ _ _ (by decide)
      (SepFree.cons _ _ _ (by decide) (SepFree.cons _ _ _ (by decide)
      (SepFree.cons _ _ _ (fun hh => absurd hh.1 (by decide))
      (SepFree.cons _ _ _ (fun hh => isJsSpace_ne_colon w hw hh.1)
      (SepFree.single d))))))))
  | plain d _ =>
    exact SepFree.cons _ _ _ (by decide) (SepFree.cons _ _ _ (by decide)
      (SepFree.cons _ _ _ (by decide) (SepFree.cons _ _ _ (by decide)
      (SepFree.cons _ _ _ (by decide) (SepFree.cons _ _ _ (by decide)
      (SepFree.cons _ _ _ (fun hh => absurd hh.1 (by decide))
      (SepFree.single d)))))))

/-- C7 (counterexample): the model text
`Caption[3]: C`, `Caption[1]: A`, `Caption[2]: B`, `Invitation: Come!`
contains the three lines the claim quantifies over (substring checks in
the last conjunct), yet the global caption match collects every caption
line, so the parser yields the three captions `[C, A, B]`, not the
claimed two-caption sequence `[A, B]`. -/
theorem c7_counterexample_extra_caption_line :
    captionsOf
      "Caption[3]: C\nCaption[1]: A\nCaption[2]: B\nInvitation: Come!".toList =
      [Caption.mk (some ['C']), Caption.mk (some ['A']), Caption.mk (some ['B'])]
    ∧ captionsOf
      "Caption[3]: C\nCaption[1]: A\nCaption[2]: B\nInvitation: Come!".toList ≠
      [Caption.mk (some ['A']), Caption.mk (some ['B'])]
    ∧ parseInvitation
      "Caption[3]: C\nCaption[1]: A\nCaption[2]: B\nInvitation: Come!".toList =
      some "Come!".toList
    ∧ (hasSub "Caption[1]: A".toList
        "Caption[3]: C\nCaption[1]: A\nCaption[2]: B\nInvitation: Come!".toList = true
      ∧ hasSub "Caption[2]: B".toList
        "Caption[3]: C\nCaption[1]: A\nCaption[2]: B\nInvitation: Come!".toList = true
      ∧ hasSub "Invitation: Come!".toList
        "Caption[3]: C\nCaption[1]: A\nCaption[2]: B\nInvitation: Come!".toList = true) := by
  exact ⟨by decide, by decide, by decide, by decide, by decide, by decide⟩

/-- C7 (amended): for the model text consisting exactly of the lines
`Caption[1]: A`, `Caption[2]: B` and `Invitation: Come!` — rather than
every text merely containing them, since the global caption match picks
up any further caption lines — the parser yields the ordered captions
`[{text: "A"}, {text: "B"}]` and the invitation `"Come!"`. -/
theorem c7_parser_canonical_text :
    captionsOf "Caption[1]: A\nCaption[2]: B\nInvitation: Come!".toList =
      [Caption.mk (some ['A']), Caption.mk (some ['B'])]
    ∧ parseInvitation "Caption[1]: A\nCaption[2]: B\nInvitation: Come!".toList =
      some "Come!".toList := by
  exact ⟨by decide, by decide⟩

/-- C2 (evaluation at the failing input): for the model text
`"Invitation:" ++ "\n" ++ "Come!"` — the invitation marker followed by a
line break — the first invitation regex does match the whole text (its
`\s` matches the newline), but the `": "`-split of that full match has a
single piece, so the extracted invitation is `undefined` (`none`) rather
than the next line `"Come!"`. -/
theorem c2_newline_invitation_lost :
    firstMatch matchInv1At "Invitation:\nCome!".toList =
      some "Invitation:\nCome!".toList
    ∧ parseInvitation "Invitation:\nCome!".toList = none
    ∧ parseInvitation "Invitation:\nCome!".toList ≠ some "Come!".toList := by
  exact ⟨by decide, by decide, by decide⟩

/-- C3 (counterexample): the caption line `Caption[1]: A: B` — whose
caption text itself contains `": "` — is parsed to the caption text `"A"`,
the piece between the first and second separator, not the full remainder
`"A: B"` claimed. -/
theorem c3_counterexample_truncated_caption :
    captionsOf "Caption[1]: A: B".toList = [Caption.mk (some ['A'])]
    ∧ (['A'] : List Char) ≠ "A: B".toList := by
  exact ⟨by decide, by decide⟩

/-- C3 (amended): for every caption line matched by one of the three
caption patterns whose `\s` is a space — a line `<core>": "<rest>` with
`core` of the shape `Caption[<digit>]`, `Caption<space><digit>` or
`Caption<digit>` — the extracted caption text is the piece of the line
between the first `": "` and the following `": "` when the rest contains
one (first conjunct), and the whole rest when it contains none (second
conjunct). -/
theorem c3_amended_caption_between_seps (core b c : List Char)
    (hcore : CapPre core) (hb : sepFree b = true) :
    extractCaptionText (core ++ ':' :: ' ' :: (b ++ ':' :: ' ' :: c)) = some b
    ∧ extractCaptionText (core ++ ':' :: ' ' :: b) = some b := by
  have hbp : SepFree b := sepFree_sound b hb
  have hcp : SepFree core := capPre_sepFree core hcore
  constructor
  · unfold extractCaptionText
    rw [splitCS_firstSep core hcp [] (b ++ ':' :: ' ' :: c),
      splitCS_firstSep b hbp [] c]
    simp
  · unfold extractCaptionText
    rw [splitCS_firstSep core hcp [] b, splitCS_sepFree b hbp []]
    simp

/-- Witness for the amended C3 at the concrete line `Caption[1]: A: B`
(and `Caption[1]: A`). -/
theorem c3_amended_caption_between_seps_witness :
    extractCaptionText
        (('C' :: 'a' :: 'p' :: 't' :: 'i' :: 'o' :: 'n' :: '[' :: '1' :: ']' :: []) ++
          ':' :: ' ' :: (['A'] ++ ':' :: ' ' :: ['B'])) = some ['A']
    ∧ extractCaptionText
        (('C' :: 'a' :: 'p' :: 't' :: 'i' :: 'o' :: 'n' :: '[' :: '1' :: ']' :: []) ++
          ':' :: ' ' :: ['A']) = some ['A'] :=
  c3_amended_caption_between_seps _ _ _ (CapPre.bracket '1' (by decide)) (by decide)

/-- C1 (counterexample): a non-empty catalog whose second entry has a
hand-written description but whose first entry's description key is
missing (`undefined`): the rejection loop only repeats on `null`, so the
random draw 0 makes selection return the entry whose description is
absent. -/
theorem c1_counterexample_undefined_description :
    selectMeme
      [Meme.mk "1".toList "m1".toList "u1".toList 2 DescVal.undef,
       Meme.mk "2".toList "m2".toList "u2".toList 2 (DescVal.str "described".toList)]
      [0] =
      SelectResult.selected (Meme.mk "1".toList "m1".toList "u1".toList 2 DescVal.undef)
    ∧ DescVal.undef ≠ DescVal.str "described".toList := by
  exact ⟨by decide, by decide⟩

/-- C1 (amended): the template selector never returns an entry whose
description is `null` — the rejection predicate is exactly
`description === null`, so only the `null` representation of an absent
description is excluded; an entry whose description key is missing
(`undefined`) can still be returned. -/
theorem c1_amended_never_null_description (memes : List Meme)
    (choices : List Nat) (m : Meme)
    (h : selectMeme memes choices = SelectResult.selected m) :
    m.description ≠ DescVal.null := by
  induction choices with
  | nil => exact absurd h (by simp [selectMeme])
  | cons i rest ih =>
    rw [selectMeme] at h
    cases hidx : memes[i]? with
    | none => rw [hidx] at h; exact absurd h (by simp)
    | some mm =>
      rw [hidx] at h
      have h2 : (if mm.description = DescVal.null then selectMeme memes rest
          else SelectResult.selected mm) = SelectResult.selected m := h
      by_cases hd : mm.description = DescVal.null
      · rw [if_pos hd] at h2
        exact ih h2
      · rw [if_neg hd] at h2
        injection h2 with hmeq
        subst hmeq
        exact hd

/-- Witness for the amended C1: a concrete catalog and draw where the
selector succeeds with a non-null description. -/
theorem c1_amended_never_null_description_witness :
    (Meme.mk "2".toList "m2".toList "u2".toList 2
      (DescVal.str "described".toList)).description ≠ DescVal.null :=
  c1_amended_never_null_description
    [Meme.mk "1".toList "m1".toList "u1".toList 2 DescVal.null,
     Meme.mk "2".toList "m2".toList "u2".toList 2 (DescVal.str "described".toList)]
    [0, 1] _ (by decide)

/-- C9: the selection step is only safe under the non-empty-catalog
precondition.  First part: with an empty catalog, indexing yields no
element, the loop exits with an undefined selection, and the handler
crashes on the subsequent field access instead of answering (no 500
response).  Second part: with a non-empty catalog and every random draw
in range (as `Math.floor(Math.random() * memes.length)` always is), the
undefined-selection branch is unreachable. -/
theorem c9_selection_needs_nonempty_catalog :
    (∀ (env : Env) (i : Nat) (rest : List Nat),
      env.method = "POST".toList → env.catalogExists = true →
      env.memes = [] → env.rands = i :: rest →
      handler env = (Outcome.crash, noEffects))
    ∧ (∀ (memes : List Meme) (rands : List Nat), memes ≠ [] →
      (∀ j ∈ rands, j < memes.length) →
      selectMeme memes rands ≠ SelectResult.undefinedSel) := by
  constructor
  · intro env i rest hm hc hmem hr
    simp [handler, hm, hc, hmem, hr, selectMeme]
  · intro memes rands hne hj
    induction rands with
    | nil => simp [selectMeme]
    | cons i rest ih =>
      rw [selectMeme]
      have hi : i < memes.length := hj i (by simp)
      rw [List.getElem?_eq_getElem hi]
      show (if memes[i].description = DescVal.null then selectMeme memes rest
          else SelectResult.selected memes[i]) ≠ SelectResult.undefinedSel
      by_cases hd : memes[i].description = DescVal.null
      · rw [if_pos hd]
        exact ih (fun j hjm => hj j (List.mem_cons_of_mem i hjm))
      · rw [if_neg hd]
        simp

/-- Witness for C9 at concrete inputs: an empty catalog crashes the
handler; a singleton catalog with an in-range draw never reaches the
undefined selection. -/
theorem c9_selection_needs_nonempty_catalog_witness :
    handler (Env.mk "POST".toList true [] [0] none false none 0 [] 0) =
      (Outcome.crash, noEffects)
    ∧ selectMeme [Meme.mk [] [] [] 1 DescVal.undef] [0] ≠
      SelectResult.undefinedSel :=
  ⟨c9_selection_needs_nonempty_catalog.1
      (Env.mk "POST".toList true [] [0] none false none 0 [] 0) 0 [] rfl rfl rfl rfl,
   c9_selection_needs_nonempty_catalog.2
      [Meme.mk [] [] [] 1 DescVal.undef] [0] (by decide) (by decide)⟩

theorem handler_render_phase (env : Env) (m : Meme) (msg : List Char)
    (hm : env.method = "POST".toList) (hc : env.catalogExists = true)
    (hs : selectMeme env.memes env.rands = SelectResult.selected m)
    (hmc : env.modelContent = some msg) (hne : msg ≠ []) :
    handler env =
      if env.renderOk = false ∨ invitationInvalid (parseInvitation msg) = true ∨
          captionsOf msg = [] then
        (Outcome.response 500 (RespBody.err genErrMsg), Effects.mk true 0 [])
      else
        (Outcome.response 201
          (RespBody.ok env.renderUrl (captionsOf msg) (parseInvitation msg)),
         Effects.mk true 1
          [StoredDoc.mk env.uuid m.id (captionsOf msg) (parseInvitation msg)
            env.now env.storeCount]) := by
  unfold handler
  rw [hm, if_neg (by simp), hc, if_neg (by simp), hs, hmc]
  show (if msg = [] then _ else _) = _
  rw [if_neg hne]

/-- C4: when the chat-completion content is absent/`null` (`none`) or the
empty string, the handler answers 500 with the generation-service error
message and performs no render call and no store operation (no count read
and no write). -/
theorem c4_empty_model_output_500_no_calls (env : Env) (m : Meme)
    (hm : env.method = "POST".toList) (hc : env.catalogExists = true)
    (hs : selectMeme env.memes env.rands = SelectResult.selected m)
    (hmc : env.modelContent = none ∨ env.modelContent = some []) :
    handler env = (Outcome.response 500 (RespBody.err chatErrMsg), noEffects) := by
  rcases hmc with hmc | hmc
  · unfold handler
    rw [hm, if_neg (by simp), hc, if_neg (by simp), hs, hmc]
  · unfold handler
    rw [hm, if_neg (by simp), hc, if_neg (by simp), hs, hmc]
    rfl

/-- Witness for C4 at a concrete request whose model content is absent. -/
theorem c4_empty_model_output_500_no_calls_witness :
    handler
      (Env.mk "POST".toList true
        [Meme.mk "61579".toList "One Does Not Simply".toList "u".toList 2
          (DescVal.str "described".toList)]
        [0] none true none 0 "id-1".toList 0) =
      (Outcome.response 500 (RespBody.err chatErrMsg), noEffects) :=
  c4_empty_model_output_500_no_calls
    (Env.mk "POST".toList true
      [Meme.mk "61579".toList "One Does Not Simply".toList "u".toList 2
        (DescVal.str "described".toList)]
      [0] none true none 0 "id-1".toList 0)
    (Meme.mk "61579".toList "One Does Not Simply".toList "u".toList 2
      (DescVal.str "described".toList))
    rfl rfl (by decide) (Or.inl rfl)

/-- C5: when the render API reports failure, or the parsed captions are
empty, or the parsed invitation is `undefined`/empty, the handler answers
500 and performs no store operation at all — no count read and no
document write. -/
theorem c5_failed_request_writes_nothing (env : Env) (m : Meme)
    (msg : List Char)
    (hm : env.method = "POST".toList) (hc : env.catalogExists = true)
    (hs : selectMeme env.memes env.rands = SelectResult.selected m)
    (hmc : env.modelContent = some msg) (hne : msg ≠ [])
    (hfail : env.renderOk = false ∨
      invitationInvalid (parseInvitation msg) = true ∨ captionsOf msg = []) :
    handler env =
      (Outcome.response 500 (RespBody.err genErrMsg), Effects.mk true 0 []) := by
  rw [handler_render_phase env m msg hm hc hs hmc hne, if_pos hfail]

/-- Witness for C5 at a concrete request whose render call fails. -/
theorem c5_failed_request_writes_nothing_witness :
    handler
      (Env.mk "POST".toList true
        [Meme.mk "61579".toList "One Does Not Simply".toList "u".toList 2
          (DescVal.str "described".toList)]
        [0] (some "Caption[1]: A\nInvitation: Come!".toList) false none 0
        "id-1".toList 0) =
      (Outcome.response 500 (RespBody.err genErrMsg), Effects.mk true 0 []) :=
  c5_failed_request_writes_nothing
    (Env.mk "POST".toList true
      [Meme.mk "61579".toList "One Does Not Simply".toList "u".toList 2
        (DescVal.str "described".toList)]
      [0] (some "Caption[1]: A\nInvitation: Come!".toList) false none 0
      "id-1".toList 0)
    (Meme.mk "61579".toList "One Does Not Simply".toList "u".toList 2
      (DescVal.str "described".toList))
    "Caption[1]: A\nInvitation: Come!".toList
    rfl rfl (by decide) rfl (by decide) (Or.inl rfl)

/-- C6: on a fully successful request — non-empty model output whose
parse gives non-empty captions and a valid invitation, and a successful
render call — the handler reads the store count once, writes exactly one
document keyed by the freshly generated identifier, with its sequence
index (`random`) equal to the count just read and its creation timestamp
the current time, and answers 201 with the rendered meme url, the
captions and the invitation. -/
theorem c6_success_writes_one_document (env : Env) (m : Meme)
    (msg : List Char)
    (hm : env.method = "POST".toList) (hc : env.catalogExists = true)
    (hs : selectMeme env.memes env.rands = SelectResult.selected m)
    (hmc : env.modelContent = some msg) (hne : msg ≠ [])
    (hrender : env.renderOk = true)
    (hinv : invitationInvalid (parseInvitation msg) = false)
    (hcap : captionsOf msg ≠ []) :
    handler env =
      (Outcome.response 201
        (RespBody.ok env.renderUrl (captionsOf msg) (parseInvitation msg)),
       Effects.mk true 1
        [StoredDoc.mk env.uuid m.id (captionsOf msg) (parseInvitation msg)
          env.now env.storeCount]) := by
  rw [handler_render_phase env m msg hm hc hs hmc hne]
  rw [if_neg ?hno]
  case hno =>
    rintro (h | h | h)
    · rw [hrender] at h; cases h
    · rw [hinv] at h; cases h
    · exact hcap h

/-- Witness for C6 at a fully successful concrete request. -/
theorem c6_success_writes_one_document_witness :
    handler
      (Env.mk "POST".toList true
        [Meme.mk "181913649".toList "Drake Hotline Bling".toList "u".toList 2
          (DescVal.str "described".toList)]
        [0] (some "Caption[1]: A\nCaption[2]: B\nInvitation: Come!".toList)
        true (some "https://i.imgflip.com/x.jpg".toList) 5 "uuid-1".toList 1700) =
      (Outcome.response 201
        (RespBody.ok (some "https://i.imgflip.com/x.jpg".toList)
          (captionsOf "Caption[1]: A\nCaption[2]: B\nInvitation: Come!".toList)
          (parseInvitation "Caption[1]: A\nCaption[2]: B\nInvitation: Come!".toList)),
       Effects.mk true 1
        [StoredDoc.mk "uuid-1".toList "181913649".toList
          (captionsOf "Caption[1]: A\nCaption[2]: B\nInvitation: Come!".toList)
          (parseInvitation "Caption[1]: A\nCaption[2]: B\nInvitation: Come!".toList)
          1700 5]) :=
  c6_success_writes_one_document
    (Env.mk "POST".toList true
      [Meme.mk "181913649".toList "Drake Hotline Bling".toList "u".toList 2
        (DescVal.str "described".toList)]
      [0] (some "Caption[1]: A\nCaption[2]: B\nInvitation: Come!".toList)
      true (some "https://i.imgflip.com/x.jpg".toList) 5 "uuid-1".toList 1700)
    (Meme.mk "181913649".toList "Drake Hotline Bling".toList "u".toList 2
      (DescVal.str "described".toList))
    "Caption[1]: A\nCaption[2]: B\nInvitation: Come!".toList
    rfl rfl (by decide) rfl (by decide) rfl (by decide) (by decide)

theorem dropPrefixQ_append (p : List Char) :
    ∀ s r, dropPrefixQ p s = some r → s = p ++ r := by
  induction p with
  | nil => intro s r h; injection h with h
  | cons x ps ih =>
    intro s r h
    cases s with
    | nil => cases h
    | cons c cs =>
      rw [dropPrefixQ] at h
      by_cases hc : c = x
      · rw [if_pos hc] at h
        rw [List.cons_append, ← ih cs r h, hc]
      · rw [if_neg hc] at h
        cases h

theorem matchInv1At_needs_marker (s : List Char)
    (pr : List Char × List Char) (h : matchInv1At s = some pr) :
    (dropPrefixQ invMarker s).isSome = true := by
  rw [matchInv1At] at h
  cases hd : dropPrefixQ invMarker s with
  | none => rw [hd] at h; cases h
  | some r1 => simp

theorem matchInv2At_needs_marker (s : List Char)
    (pr : List Char × List Char) (h : matchInv2At s = some pr) :
    (dropPrefixQ invMarker s).isSome = true := by
  rw [matchInv2At] at h
  cases hd : dropPrefixQ invMarker s with
  | none => rw [hd] at h; cases h
  | some r1 => simp

theorem firstMatch_none_of_no_marker
    (q : List Char → Option (List Char × List Char))
    (hq : ∀ s pr, q s = some pr → (dropPrefixQ invMarker s).isSome = true) :
    ∀ msg, hasSub invMarker msg = false → firstMatch q msg = none := by
  intro msg
  induction msg with
  | nil =>
    intro _
    cases hqn : q [] with
    | none => simp [firstMatch, hqn]
    | some pr =>
      have hsome := hq [] pr hqn
      rw [show dropPrefixQ invMarker [] = none from rfl] at hsome
      cases hsome
  | cons c cs ih =>
    intro hno
    rw [hasSub] at hno
    have h1 : (dropPrefixQ invMarker (c :: cs)).isSome = false :=
      (Bool.or_eq_false_iff.mp hno).1
    have h2 : hasSub invMarker cs = false := (Bool.or_eq_false_iff.mp hno).2
    cases hqn : q (c :: cs) with
    | some pr =>
      rw [hq (c :: cs) pr hqn] at h1
      cases h1
    | none =>
      rw [firstMatch, hqn]
      exact ih h2

theorem hasSub_mem (p : List Char) :
    ∀ msg, hasSub p msg = true → ∀ a ∈ p, a ∈ msg := by
  intro msg
  induction msg with
  | nil =>
    intro h a ha
    rw [hasSub, List.isEmpty_iff] at h
    subst h
    cases ha
  | cons c cs ih =>
    intro h a ha
    rw [hasSub] at h
    rcases Bool.or_eq_true_iff.mp h with h1 | h1
    · cases hd : dropPrefixQ p (c :: cs) with
      | none => rw [hd] at h1; cases h1
      | some r =>
        rw [dropPrefixQ_append p (c :: cs) r hd]
        exact List.mem_append_left r ha
    · exact List.mem_cons_of_mem c (ih h1 a ha)

theorem no_colon_no_marker (msg : List Char) (h : ':' ∉ msg) :
    hasSub invMarker msg = false := by
  cases hs : hasSub invMarker msg with
  | false => rfl
  | true => exact absurd (hasSub_mem invMarker msg hs ':' (by decide)) h

theorem lastIdxOf_eq_none (c : Char) :
    ∀ msg, c ∉ msg → lastIdxOf c msg = none := by
  intro msg
  induction msg with
  | nil => intro _; rfl
  | cons x xs ih =>
    intro h
    rw [List.mem_cons, not_or] at h
    rw [lastIdxOf, ih h.2, if_neg (Ne.symm h.1)]

theorem lastIdxOf_isSome_of_mem (c : Char) :
    ∀ msg, c ∈ msg → (lastIdxOf c msg).isSome = true := by
  intro msg
  induction msg with
  | nil => intro h; cases h
  | cons x xs ih =>
    intro h
    rw [lastIdxOf]
    cases hx : lastIdxOf c xs with
    | some j => rfl
    | none =>
      rcases List.mem_cons.mp h with h1 | h1
      · show (if x = c then some 0 else (none : Option Nat)).isSome = true
        rw [if_pos h1.symm]
        rfl
      · have h3 := ih h1
        rw [hx] at h3
        simp at h3

theorem lastIdxOf_decomp (c : Char) :
    ∀ (msg : List Char) (i : Nat), lastIdxOf c msg = some i →
      msg.take i ++ c :: msg.drop (i + 1) = msg ∧ c ∉ msg.drop (i + 1) := by
  intro msg
  induction msg with
  | nil => intro i h; cases h
  | cons x xs ih =>
    intro i h
    rw [lastIdxOf] at h
    cases hx : lastIdxOf c xs with
    | some j =>
      rw [hx] at h
      injection h with h
      subst h
      obtain ⟨ha, hb⟩ := ih j hx
      constructor
      · rw [List.take_succ_cons, List.cons_append,
          show (x :: xs).drop (j + 1 + 1) = xs.drop (j + 1) from rfl, ha]
      · exact hb
    | none =>
      rw [hx] at h
      by_cases hxc : x = c
      · rw [if_pos hxc] at h
        injection h with h
        subst h
        refine ⟨by rw [List.take_zero, List.nil_append, hxc]; rfl, ?_⟩
        intro hm
        rw [show (x :: xs).drop 1 = xs from rfl] at hm
        have := lastIdxOf_isSome_of_mem c xs hm
        rw [hx] at this
        cases this
      · rw [if_neg hxc] at h
        cases h

/-- C8: for every model text with no `Invitation:` marker (both invitation
regexes fail) but containing a colon, the parser returns exactly the
substring after the final colon: the text decomposes as a prefix, that
final colon, and the returned invitation, which itself contains no
colon (so any leading space after the colon is kept). -/
theorem c8_no_marker_last_colon_suffix (msg : List Char)
    (hno : hasSub invMarker msg = false) (hc : ':' ∈ msg) :
    parseInvitation msg = some (invitationFallback msg)
    ∧ msg.take (lastColonCut msg - 1) ++ ':' :: invitationFallback msg = msg
    ∧ ':' ∉ invitationFallback msg := by
  have h1 : firstMatch matchInv1At msg = none :=
    firstMatch_none_of_no_marker matchInv1At matchInv1At_needs_marker msg hno
  have h2 : firstMatch matchInv2At msg = none :=
    firstMatch_none_of_no_marker matchInv2At matchInv2At_needs_marker msg hno
  have hp : parseInvitation msg = some (invitationFallback msg) := by
    rw [parseInvitation, h1, h2]
    rfl
  cases hli : lastIdxOf ':' msg with
  | none =>
    have h3 := lastIdxOf_isSome_of_mem ':' msg hc
    rw [hli] at h3
    simp at h3
  | some i =>
    obtain ⟨ha, hb⟩ := lastIdxOf_decomp ':' msg i hli
    have hcut : lastColonCut msg = i + 1 := by
      rw [lastColonCut, hli]
    have hfb : invitationFallback msg = msg.drop (i + 1) := by
      rw [invitationFallback, hcut]
    refine ⟨hp, ?_, ?_⟩
    · rw [hfb, hcut]
      simpa using ha
    · rw [hfb]
      exact hb

/-- Witness for C8 at the concrete marker-free text
`"ask me anything: tonight"`. -/
theorem c8_no_marker_last_colon_suffix_witness :
    parseInvitation "ask me anything: tonight".toList =
      some (invitationFallback "ask me anything: tonight".toList)
    ∧ ("ask me anything: tonight".toList.take
        (lastColonCut "ask me anything: tonight".toList - 1)) ++
        ':' :: invitationFallback "ask me anything: tonight".toList =
        "ask me anything: tonight".toList
    ∧ ':' ∉ invitationFallback "ask me anything: tonight".toList :=
  c8_no_marker_last_colon_suffix "ask me anything: tonight".toList
    (by decide) (by decide)

/-- C10: for every model text containing no colon at all (hence no
`Invitation:` marker either), the last-resort fallback returns the whole
text as the invitation, so a non-empty such text never fails the
empty-invitation validity check of line 122. -/
theorem c10_no_colon_whole_text (msg : List Char) (h : ':' ∉ msg) :
    parseInvitation msg = some msg
    ∧ (msg ≠ [] → invitationInvalid (parseInvitation msg) = false) := by
  have hno : hasSub invMarker msg = false := no_colon_no_marker msg h
  have h1 : firstMatch matchInv1At msg = none :=
    firstMatch_none_of_no_marker matchInv1At matchInv1At_needs_marker msg hno
  have h2 : firstMatch matchInv2At msg = none :=
    firstMatch_none_of_no_marker matchInv2At matchInv2At_needs_marker msg hno
  have hfb : invitationFallback msg = msg := by
    rw [invitationFallback, lastColonCut, lastIdxOf_eq_none ':' msg h]
    exact List.drop_zero msg
  have hp : parseInvitation msg = some msg := by
    rw [parseInvitation, h1, h2]
    show some (invitationFallback msg) = some msg
    rw [hfb]
  refine ⟨hp, fun hne => ?_⟩
  rw [hp, invitationInvalid]
  simpa using hne

/-- Witness for C10 at the concrete colon-free text `"Hello world"`. -/
theorem c10_no_colon_whole_text_witness :
    parseInvitation "Hello world".toList = some "Hello world".toList
    ∧ ("Hello world".toList ≠ [] →
      invitationInvalid (parseInvitation "Hello world".toList) = false) :=
  c10_no_colon_whole_text "Hello world".toList (by decide)
